import Mathlib

/-!
Verification development for the 1C cluster administration script
(`cluster_manager_Ira.py`).

The script invokes an external administration utility (`rac`), parses its
blank-line-delimited `key: value` output into typed records, correlates
sessions to infobases, flags infobases without sessions as inactive, and
renders text/JSON reports.

Modelling conventions:
* Python strings are Lean `String`s; where character-level reasoning is
  needed we work on `List Char` (`String.data`).
* Python `datetime` values are abstracted as `Nat` timestamps: Python
  datetimes are totally ordered and always truthy, `max` over them is the
  usual maximum, and `isoformat`/`str` become an injective rendering
  function `datetimeStr`.
* Python dictionaries (as produced by the output parsing loop) are
  insertion-ordered association lists with unique keys; assigning to an
  existing key overwrites its value in place, a fresh key is appended.
* The external process boundary is a record `InvokeResult`
  (timeout flag, exit code, stdout), matching the information
  `subprocess.run` gives `_execute_command`.
-/

/-! ## Character/string primitives of the Python string methods used -/

/-- The whitespace characters recognised by Python's `str.strip()`. -/
def isPySpace (c : Char) : Bool :=
  c = ' ' || c = '\t' || c = '\n' || c = '\r' || c = Char.ofNat 11 || c = Char.ofNat 12

/-- Python `str.strip()` on a character list: drop whitespace from both ends. -/
def pyStrip (l : List Char) : List Char :=
  ((l.dropWhile isPySpace).reverse.dropWhile isPySpace).reverse

/-- Python `str.strip()` on a `String`. -/
def pyStripS (s : String) : String := String.mk (pyStrip s.data)

/-- Python `str.split('\n')`: split a character list at newline characters.
Never returns the empty list. -/
def splitNl : List Char → List (List Char)
  | [] => [[]]
  | c :: cs =>
    if c = '\n' then [] :: splitNl cs
    else
      match splitNl cs with
      | [] => [[c]]
      | g :: gs => (c :: g) :: gs

/-- ASCII lowercasing of one character, the fragment of Python `str.lower()`
relevant to detecting the ASCII substring "error". -/
def asciiLower (c : Char) : Char :=
  if 'A' ≤ c ∧ c ≤ 'Z' then Char.ofNat (c.toNat + 32) else c

/-- Python's `pat in s` substring test on character lists. -/
def containsSeq (pat : List Char) : List Char → Bool
  | [] => pat.isEmpty
  | c :: cs => pat.isPrefixOf (c :: cs) || containsSeq pat cs

/-- Python `"error" in s.lower()`. -/
def containsError (s : String) : Bool :=
  containsSeq ("error".data) (s.data.map asciiLower)

/-- Python `max` over a nonempty list of timestamps (`[]` is never passed;
the `0` default is unreachable in the places it is used). -/
def pyMaxList : List Nat → Nat
  | [] => 0
  | x :: xs => xs.foldl Nat.max x

/-! ## Data model (the dataclasses of the script) -/

/-- The `Cluster` dataclass. -/
structure Cluster where
  cluster_id : String
  host : String
  port : String
  name : String
deriving DecidableEq, Repr

/-- The `WorkingServer` dataclass. -/
structure WorkingServer where
  server_id : String
  name : String
  host : String
  port : String
  port_range : String := ""
  cluster_port : String := ""
deriving DecidableEq, Repr

/-- The `InfoBase` dataclass; `last_session_time : Option Nat` models the
optional datetime. -/
structure InfoBase where
  infobase_id : String
  name : String
  descr : String := ""
  sessions_deny : String := "off"
  scheduled_jobs_deny : String := "off"
  sessions_count : Nat := 0
  last_session_time : Option Nat := none
  is_inactive : Bool := false
deriving DecidableEq, Repr

/-- The `Session` dataclass. -/
structure Session where
  session_id : String
  infobase_id : String
  user_name : String
  app_id : String
  started_at : Option Nat := none
  last_active_at : Option Nat := none
deriving DecidableEq, Repr

/-- The `ClusterReport` dataclass (the snapshot aggregate). -/
structure ClusterReport where
  generated_at : Nat
  clusters : List Cluster := []
  servers : List WorkingServer := []
  infobases : List InfoBase := []
  sessions : List Session := []
  inactive_bases : List InfoBase := []
  errors : List String := []
deriving DecidableEq, Repr

/-! ## The external process boundary and `_execute_command` -/

/-- What `subprocess.run` reports back to `_execute_command`: whether the
30-second timeout fired, the exit status, and the standard output text. -/
structure InvokeResult where
  timedOut : Bool
  returncode : Int
  stdout : String
deriving DecidableEq, Repr

/-- Model of `RACClient._execute_command`: a timeout yields `""`; a nonzero exit
status yields `""`; stdout that is blank after stripping yields `""`;
otherwise the raw (unstripped) stdout is returned. -/
def executeCommand (r : InvokeResult) : String :=
  if r.timedOut then ""
  else if r.returncode ≠ 0 then ""
  else if (pyStripS r.stdout).data.isEmpty then ""
  else r.stdout

/-! ## Record parsing (`RACClient._parse_output`) -/

/-- A parsed record: a Python dict as an insertion-ordered association list
over character lists. -/
abbrev PDict := List (List Char × List Char)

/-- Python `dict` assignment `d[k] = v`: overwrite in place if the key is
present, otherwise append the new binding. -/
def dictInsert (d : PDict) (k v : List Char) : PDict :=
  if d.any (fun p => p.1 = k) then
    d.map (fun p => if p.1 = k then (k, v) else p)
  else
    d ++ [(k, v)]

/-- Python `item.get(key, '')` on a parsed record. -/
def dictGet (d : PDict) (k : List Char) : List Char :=
  match d.find? (fun p => p.1 = k) with
  | some p => p.2
  | none => []

/-- One non-blank line of `_parse_output`'s loop: if the line contains a
colon, `partition(':')` it into key and value, strip both and assign;
otherwise the line is ignored. -/
def parseLine (cur : PDict) (line : List Char) : PDict :=
  if line.contains ':' then
    dictInsert cur
      (pyStrip (line.takeWhile (fun c => ¬ c = ':')))
      (pyStrip ((line.dropWhile (fun c => ¬ c = ':')).drop 1))
  else cur

/-- The loop of `_parse_output` over the split lines, carrying
`current_item`: a blank (stripped) line flushes a nonempty current record;
the trailing nonempty record is flushed at the end. -/
def parseLoop : List (List Char) → PDict → List PDict
  | [], cur => if cur.isEmpty then [] else [cur]
  | l :: ls, cur =>
    if (pyStrip l).isEmpty then
      if cur.isEmpty then parseLoop ls [] else cur :: parseLoop ls []
    else
      parseLoop ls (parseLine cur (pyStrip l))

/-- Model of `RACClient._parse_output`: strip the whole output, split on newlines,
run the record-building loop. -/
def parseOutput (s : String) : List PDict :=
  parseLoop (splitNl (pyStrip s.data)) []

/-! ## Entity mapping and query operations -/

/-- The mapping `RACClient.get_clusters` applies to one parsed record. -/
def mkCluster (item : PDict) : Cluster :=
  { cluster_id := String.mk (dictGet item "cluster".data)
    host := String.mk (dictGet item "host".data)
    port := String.mk (dictGet item "port".data)
    name := String.mk (dictGet item "name".data) }

/-- Model of `RACClient.get_clusters`, as a function of the external call's result:
parse the (possibly empty) command output and map each record. -/
def getClusters (r : InvokeResult) : List Cluster :=
  (parseOutput (executeCommand r)).map mkCluster

/-! ## Mutation primitives (`block_infobase`, `terminate_session`) -/

/-- The success computation of `RACClient.block_infobase` from the command
output: `"error" not in output.lower() if output else False`. -/
def blockSuccess (out : String) : Bool :=
  if out.data.isEmpty then false else ! containsError out

/-- The success computation of `RACClient.terminate_session` from the
command output: `"error" not in output.lower() if output else True`. -/
def terminateSuccess (out : String) : Bool :=
  if out.data.isEmpty then true else ! containsError out

/-- The composition of `block_infobase` with `_execute_command`. -/
def blockInfobaseResult (r : InvokeResult) : Bool :=
  blockSuccess (executeCommand r)

/-- The composition of `terminate_session` with `_execute_command`. -/
def terminateSessionResult (r : InvokeResult) : Bool :=
  terminateSuccess (executeCommand r)

/-! ## Correlation engine (per-cluster loop of `collect_cluster_info`) -/

/-- The session filter `[s for s in all_sessions if s.infobase_id == ib.infobase_id]`. -/
def ibSessionsOf (ib : InfoBase) (ss : List Session) : List Session :=
  ss.filter (fun s => s.infobase_id == ib.infobase_id)

/-- The list `[s.last_active_at for s in ib_sessions if s.last_active_at]`
(datetimes are always truthy, so this keeps exactly the non-`None` values). -/
def lastTimesOf (ib : InfoBase) (ss : List Session) : List Nat :=
  (ibSessionsOf ib ss).filterMap (fun s => s.last_active_at)

/-- The body of the per-infobase correlation loop: set `sessions_count`;
if there are sessions and some carry `last_active_at`, set
`last_session_time` to their maximum; if the count is zero, set
`is_inactive`. -/
def correlateIB (ib : InfoBase) (ss : List Session) : InfoBase :=
  { ib with
    sessions_count := (ibSessionsOf ib ss).length
    last_session_time :=
      if (ibSessionsOf ib ss).isEmpty then ib.last_session_time
      else if (lastTimesOf ib ss).isEmpty then ib.last_session_time
      else some (pyMaxList (lastTimesOf ib ss))
    is_inactive :=
      if (ibSessionsOf ib ss).length = 0 then true else ib.is_inactive }

/-- The per-cluster correlation loop of `collect_cluster_info`: update every
infobase in order and append each zero-session infobase to the inactive
list, preserving order. Returns (updated infobases, inactive list). -/
def correlateLoop : List InfoBase → List Session → List InfoBase × List InfoBase
  | [], _ => ([], [])
  | ib :: rest, ss =>
    ((correlateIB ib ss) :: (correlateLoop rest ss).1,
     (if (correlateIB ib ss).sessions_count = 0 then [correlateIB ib ss] else [])
       ++ (correlateLoop rest ss).2)

/-- Sum of the derived `sessions_count` fields over an infobase list. -/
def sumCounts (ibs : List InfoBase) : Nat :=
  (ibs.map (fun ib => ib.sessions_count)).sum

/-- The number of sessions whose `infobase_id` matches some infobase of the
list (each session counted once). -/
def matchedSessionCount (ibs : List InfoBase) (ss : List Session) : Nat :=
  (ss.filter (fun s => ibs.any (fun ib => s.infobase_id == ib.infobase_id))).length

/-! ## Inactivity-action planner (`block_inactive_bases`) -/

/-! ## Report projection -/

/-- Rendering of an abstract timestamp, standing for both `str(datetime)`
and `datetime.isoformat()` on the abstracted `Nat` timestamps. -/
def datetimeStr (t : Nat) : String := toString t

/-- The `"=" * 70` separator of the text report. -/
def sep70 : String := String.mk (List.replicate 70 '=')

/-- The per-session lines of the text report's session section
(user, application, and the start time when present). -/
def sessionEntryLines (s : Session) : List String :=
  ["  - Пользователь: " ++ s.user_name,
   "    Приложение: " ++ s.app_id] ++
  (match s.started_at with
   | some t => ["    Начало: " ++ datetimeStr t]
   | none => [])

/-- The truncation notice `"  ... и ещё N сеансов"` of the session section. -/
def sessionsTruncationLine (n : Nat) : String :=
  "  ... и ещё " ++ toString n ++ " сеансов"

/-- The per-infobase lines of the text report. -/
def infobaseEntryLines (ib : InfoBase) : List String :=
  [(if ib.is_inactive then "  [НЕАКТИВНА] " else "  [АКТИВНА] ") ++ ib.name,
   "    ID: " ++ ib.infobase_id,
   "    Сеансов: " ++ toString ib.sessions_count] ++
  (match ib.last_session_time with
   | some t => ["    Последняя активность: " ++ datetimeStr t]
   | none => [])

/-- Everything `_generate_text_report` appends before the per-session
entries: header, clusters, servers, infobases, and the session-section
header with the total count. -/
def reportFront (r : ClusterReport) : List String :=
  [sep70,
   "ОТЧЁТ О СОСТОЯНИИ КЛАСТЕРА 1С:ПРЕДПРИЯТИЕ",
   "Дата формирования: " ++ datetimeStr r.generated_at,
   sep70,
   "\n### КЛАСТЕРЫ ###"] ++
  (r.clusters.flatMap (fun c =>
    ["  - " ++ c.name,
     "    ID: " ++ c.cluster_id,
     "    Хост: " ++ c.host ++ ":" ++ c.port])) ++
  ["\n### РАБОЧИЕ СЕРВЕРЫ ###"] ++
  (r.servers.flatMap (fun s =>
    ["  - " ++ s.name,
     "    ID: " ++ s.server_id,
     "    Хост: " ++ s.host ++ ":" ++ s.port])) ++
  ["\n### ИНФОРМАЦИОННЫЕ БАЗЫ ###",
   "Всего баз: " ++ toString r.infobases.length,
   "Неактивных баз (без сеансов): " ++ toString r.inactive_bases.length,
   ""] ++
  (r.infobases.flatMap infobaseEntryLines) ++
  ["\n### АКТИВНЫЕ СЕАНСЫ ###",
   "Всего сеансов: " ++ toString r.sessions.length]

/-- Everything `_generate_text_report` appends after the session section:
the optional errors section, recommendations, and the footer. -/
def reportBack (r : ClusterReport) : List String :=
  (if r.errors.isEmpty then []
   else "\n### ERRORS ###" :: r.errors.map (fun e => "  ! " ++ e)) ++
  ["\n### RECOMMENDATIONS ###"] ++
  (if r.inactive_bases.isEmpty then
    ["  - Все базы активны, действий не требуется"]
   else
    "  - Рассмотрите возможность блокировки следующих неактивных баз:" ::
      r.inactive_bases.map (fun ib => "    * " ++ ib.name)) ++
  ["\n" ++ sep70,
   "КОНЕЦ ОТЧЁТА",
   sep70]

/-- The `lines` list of `ClusterManager._generate_text_report`, inline and in the
source's append order: header, clusters, servers, infobases, the first 20
sessions with a truncation notice when more than 20 exist, errors,
recommendations, footer. -/
def textReportLines (r : ClusterReport) : List String :=
  [sep70,
   "ОТЧЁТ О СОСТОЯНИИ КЛАСТЕРА 1С:ПРЕДПРИЯТИЕ",
   "Дата формирования: " ++ datetimeStr r.generated_at,
   sep70,
   "\n### КЛАСТЕРЫ ###"] ++
  (r.clusters.flatMap (fun c =>
    ["  - " ++ c.name,
     "    ID: " ++ c.cluster_id,
     "    Хост: " ++ c.host ++ ":" ++ c.port])) ++
  ["\n### РАБОЧИЕ СЕРВЕРЫ ###"] ++
  (r.servers.flatMap (fun s =>
    ["  - " ++ s.name,
     "    ID: " ++ s.server_id,
     "    Хост: " ++ s.host ++ ":" ++ s.port])) ++
  ["\n### ИНФОРМАЦИОННЫЕ БАЗЫ ###",
   "Всего баз: " ++ toString r.infobases.length,
   "Неактивных баз (без сеансов): " ++ toString r.inactive_bases.length,
   ""] ++
  (r.infobases.flatMap infobaseEntryLines) ++
  ["\n### АКТИВНЫЕ СЕАНСЫ ###",
   "Всего сеансов: " ++ toString r.sessions.length] ++
  ((r.sessions.take 20).flatMap sessionEntryLines) ++
  (if 20 < r.sessions.length then
    [sessionsTruncationLine (r.sessions.length - 20)]
   else []) ++
  (if r.errors.isEmpty then []
   else "\n### ERRORS ###" :: r.errors.map (fun e => "  ! " ++ e)) ++
  ["\n### RECOMMENDATIONS ###"] ++
  (if r.inactive_bases.isEmpty then
    ["  - Все базы активны, действий не требуется"]
   else
    "  - Рассмотрите возможность блокировки следующих неактивных баз:" ::
      r.inactive_bases.map (fun ib => "    * " ++ ib.name)) ++
  ["\n" ++ sep70,
   "КОНЕЦ ОТЧЁТА",
   sep70]

/-- Model of `ClusterManager._generate_text_report`: the lines joined with `"\n"`. -/
def generateTextReport (r : ClusterReport) : String :=
  String.intercalate "\n" (textReportLines r)

/-! ## JSON projection -/

/-- The JSON values `json.dumps` receives from `_generate_json_report`. -/
inductive JValue where
  | null : JValue
  | bool (b : Bool) : JValue
  | num (n : Int) : JValue
  | str (s : String) : JValue
  | arr (l : List JValue) : JValue
  | obj (fields : List (String × JValue)) : JValue

/-- The per-infobase object of `_generate_json_report` (a Python datetime is
always truthy, so `last_session_time` serialises as its ISO string when
present and `null` otherwise). -/
def jsonInfobase (ib : InfoBase) : JValue :=
  .obj [("id", .str ib.infobase_id),
        ("name", .str ib.name),
        ("sessions_count", .num (ib.sessions_count : Int)),
        ("is_inactive", .bool ib.is_inactive),
        ("last_session_time",
          match ib.last_session_time with
          | some t => .str (datetimeStr t)
          | none => .null)]

/-- The `data` dictionary of `ClusterManager._generate_json_report` — the exact
structured value handed to `json.dumps` (string serialisation itself is the
out-of-scope standard library). -/
def jsonReportData (r : ClusterReport) : JValue :=
  .obj [("generated_at", .str (datetimeStr r.generated_at)),
        ("clusters", .arr (r.clusters.map (fun c =>
          .obj [("id", .str c.cluster_id), ("name", .str c.name),
                ("host", .str c.host), ("port", .str c.port)]))),
        ("servers", .arr (r.servers.map (fun s =>
          .obj [("id", .str s.server_id), ("name", .str s.name),
                ("host", .str s.host), ("port", .str s.port)]))),
        ("infobases", .arr (r.infobases.map jsonInfobase)),
        ("sessions_count", .num (r.sessions.length : Int)),
        ("inactive_bases_count", .num (r.inactive_bases.length : Int)),
        ("errors", .arr (r.errors.map .str))]

/-- The infobase fields a consumer reads back from the decoded JSON. -/
structure DecodedInfobase where
  id : String
  name : String
  sessions_count : Int
  is_inactive : Bool
  last_session_time : Option String
deriving DecidableEq, Repr

/-- Field lookup in a decoded JSON object. -/
def jLookup (j : JValue) (k : String) : Option JValue :=
  match j with
  | .obj fields => (fields.find? (fun p => p.1 == k)).map (fun p => p.2)
  | _ => none

/-- Decode one infobase object of the JSON report. -/
def decodeInfobase (j : JValue) : Option DecodedInfobase :=
  match jLookup j "id", jLookup j "name", jLookup j "sessions_count",
        jLookup j "is_inactive", jLookup j "last_session_time" with
  | some (.str i), some (.str n), some (.num c), some (.bool b), some t =>
    match t with
    | .str s => some ⟨i, n, c, b, some s⟩
    | .null => some ⟨i, n, c, b, none⟩
    | _ => none
  | _, _, _, _, _ => none

/-- Decode a list of infobase objects; fails if any element fails. -/
def decodeInfobaseList : List JValue → Option (List DecodedInfobase)
  | [] => some []
  | j :: js =>
    match decodeInfobase j, decodeInfobaseList js with
    | some d, some ds => some (d :: ds)
    | _, _ => none

/-- Decode the `"infobases"` array of the JSON report. -/
def decodeInfobases (j : JValue) : Option (List DecodedInfobase) :=
  match jLookup j "infobases" with
  | some (.arr l) => decodeInfobaseList l
  | _ => none

/-- A recorded invocation of the block primitive. -/
structure BlockCall where
  cluster_id : String
  infobase_id : String
deriving DecidableEq, Repr

/-- Model of `ClusterManager.block_inactive_bases`, with an explicit log of every
invocation of the block primitive. `blockOk` is the external collaborator's
success verdict for a live block call. Faithful to the source: the loop over
`self.report.inactive_bases` is nested inside the loop over
`self.report.clusters`; the dry-run branch appends the name without any
external call, the live branch invokes the primitive and appends the name
only on success. -/
def blockInactiveBases (dryRun : Bool) (clusters : List Cluster)
    (inactive : List InfoBase) (blockOk : String → String → Bool) :
    List String × List BlockCall :=
  clusters.foldl (fun acc c =>
    inactive.foldl (fun acc2 ib =>
      if dryRun then (acc2.1 ++ [ib.name], acc2.2)
      else if blockOk c.cluster_id ib.infobase_id then
        (acc2.1 ++ [ib.name], acc2.2 ++ [⟨c.cluster_id, ib.infobase_id⟩])
      else (acc2.1, acc2.2 ++ [⟨c.cluster_id, ib.infobase_id⟩])) acc) ([], [])

/-! ## The record grammar as the specification words it

The following definitions restate §4.1 of the specification directly —
"records are separated by one or more blank lines; within a record, each
non-blank line is split once on the first colon into key and value, both
trimmed; lines without a colon are ignored; a trailing non-blank-terminated
record is still emitted; empty input yields an empty sequence; duplicate
keys overwrite (last write wins)" — to be compared with `parseOutput`,
which is translated from the source. -/

/-- Group a list of (already stripped) lines into the runs delimited by
blank lines: each blank line ends the current group and starts a new one.
Never returns the empty list. -/
def splitBlanks : List (List Char) → List (List (List Char))
  | [] => [[]]
  | l :: ls =>
    if l = [] then [] :: splitBlanks ls
    else
      match splitBlanks ls with
      | [] => [[l]]
      | g :: gs => (l :: g) :: gs

/-- Build one record from the lines of a group: every line containing a
colon contributes its trimmed key/value pair, last write wins; other lines
are ignored. -/
def mkRecord (ls : List (List Char)) : PDict :=
  ls.foldl parseLine []

/-- The records of a stripped line list: group at blank lines, build each
group's record, and keep only the groups that produced a nonempty record. -/
def specRecords (lines : List (List Char)) : List PDict :=
  ((splitBlanks lines).map mkRecord).filter (fun d => ! d.isEmpty)

/-- Section 4.1's parse contract on a raw input string: split into lines, trim
each, and extract the blank-line-delimited records. -/
def specParse (s : String) : List PDict :=
  specRecords ((splitNl s.data).map pyStrip)

/-! ## Further helper definitions used by the proofs -/

/-- Append a character to the last group of a nonempty group list. -/
def appLast : List (List Char) → Char → List (List Char)
  | [], c => [[c]]
  | [g], c => [g ++ [c]]
  | g :: g2 :: gs, c => g :: appLast (g2 :: gs) c

/-- Right-strip: drop trailing `isPySpace` characters. -/
def rstripWs (l : List Char) : List Char :=
  (l.reverse.dropWhile isPySpace).reverse

/-- The records extracted from a raw character blob without the initial
global strip: the pivot of the `parseOutput`/`specParse` comparison. -/
def linesRecords (cs : List Char) : List PDict :=
  specRecords ((splitNl cs).map pyStrip)

/-- Concrete snapshot clusters for evaluating `block_inactive_bases`. -/
def twoClusters : List Cluster :=
  [⟨"c1", "h1", "1541", "Cluster One"⟩, ⟨"c2", "h2", "1541", "Cluster Two"⟩]

/-- Concrete inactive infobase for evaluating `block_inactive_bases`. -/
def oneInactive : List InfoBase := [{ infobase_id := "ib1", name := "Idle" }]

/-- Two infobases sharing one `infobase_id` — the duplicate-identifier
snapshot used to test the session-count sum. -/
def dupIdBases : List InfoBase :=
  [{ infobase_id := "a", name := "First" }, { infobase_id := "a", name := "Second" }]

/-- A single session pointing at the duplicated `infobase_id`. -/
def oneSessionA : List Session :=
  [{ session_id := "s1", infobase_id := "a", user_name := "u", app_id := "app" }]

/-- A concrete freshly parsed infobase. -/
def sampleBase : InfoBase := { infobase_id := "a", name := "A" }

/-- A concrete session list with one matching session that carries a
`last_active_at`. -/
def sampleSessions : List Session :=
  [{ session_id := "s1", infobase_id := "a", user_name := "u", app_id := "p",
     last_active_at := some 5 }]

/-! # Theorems -/

/-! ## Error handling of the query operations (C6) -/

lemma executeCommand_of_nonzero (r : InvokeResult) (h : r.returncode ≠ 0) :
    executeCommand r = "" := by
  unfold executeCommand
  by_cases ht : r.timedOut <;> simp [ht, h]

/-- C6: when the external call exits with a nonzero status, the query
operation (here `get_clusters`) returns an empty entity list; in the
embedding the operation is a total function, reflecting that no exception
escapes the core layer at this point. -/
theorem c6_nonzero_exit_yields_empty (r : InvokeResult) (h : r.returncode ≠ 0) :
    getClusters r = [] := by
  rw [getClusters, executeCommand_of_nonzero r h]
  rfl

/-- Witness for C6 at a concrete failed invocation (exit status 1 with
nonempty stdout). -/
theorem c6_nonzero_exit_yields_empty_witness :
    getClusters ⟨false, 1, "cluster: c1"⟩ = [] :=
  c6_nonzero_exit_yields_empty ⟨false, 1, "cluster: c1"⟩ (by decide)

/-! ## The "error" substring heuristic of the mutation operations (C7) -/

/-- C7: any case-insensitive occurrence of "error" in a mutation
operation's stdout makes both `block_infobase` and `terminate_session`
report failure, and `block_infobase` reports success exactly when the
output is nonempty and free of that substring. -/
theorem c7_error_substring_heuristic (out : String) :
    (containsError out = true →
      blockSuccess out = false ∧ terminateSuccess out = false) ∧
    (blockSuccess out = true ↔ out ≠ "" ∧ containsError out = false) := by
  obtain ⟨l⟩ := out
  match l with
  | [] =>
    refine ⟨fun h => absurd h (by decide), ?_⟩
    constructor
    · intro h
      exact absurd h (by decide)
    · rintro ⟨hne, -⟩
      exact absurd rfl hne
  | c :: cs =>
    have hne : String.mk (c :: cs) ≠ "" := by
      intro h
      have h2 : (String.mk (c :: cs)).data = ("" : String).data := congrArg String.data h
      exact List.cons_ne_nil c cs h2
    have hd : (String.mk (c :: cs)).data.isEmpty = false := rfl
    constructor
    · intro h
      exact ⟨by simp [blockSuccess, hd, h], by simp [terminateSuccess, hd, h]⟩
    · simp [blockSuccess, hd, hne]

/-- Witness for C7 at a concrete output containing "ERROR". -/
theorem c7_error_substring_heuristic_witness :
    blockSuccess "service ERROR: denied" = false ∧
    terminateSuccess "service ERROR: denied" = false :=
  (c7_error_substring_heuristic "service ERROR: denied").1 (by decide)

/-! ## Empty-output asymmetry of the mutation primitives (C10) -/

/-- C10: whenever the external call yields empty output (timeout, nonzero
exit status, or blank stdout), `_execute_command` returns `""`,
`terminate_session` reports success, and `block_infobase` reports
failure — the two primitives treat the same condition asymmetrically. -/
theorem c10_empty_output_asymmetry (r : InvokeResult)
    (h : r.timedOut = true ∨ r.returncode ≠ 0 ∨ (pyStripS r.stdout).data.isEmpty = true) :
    executeCommand r = "" ∧
    terminateSessionResult r = true ∧
    blockInfobaseResult r = false := by
  have hec : executeCommand r = "" := by
    unfold executeCommand
    rcases h with h | h | h
    · simp [h]
    · by_cases ht : r.timedOut <;> simp [ht, h]
    · by_cases ht : r.timedOut <;> by_cases hrc : r.returncode = 0 <;>
        simp [ht, hrc, h]
  refine ⟨hec, ?_, ?_⟩
  · simp [terminateSessionResult, hec, terminateSuccess]
  · simp [blockInfobaseResult, hec, blockSuccess]

/-- Witness for C10 at a concrete timed-out invocation. -/
theorem c10_empty_output_asymmetry_witness :
    executeCommand ⟨true, 0, "x"⟩ = "" ∧
    terminateSessionResult ⟨true, 0, "x"⟩ = true ∧
    blockInfobaseResult ⟨true, 0, "x"⟩ = false :=
  c10_empty_output_asymmetry ⟨true, 0, "x"⟩ (Or.inl rfl)

/-! ## Dry-run planning over a multi-cluster snapshot (C3) -/

/-- C3: evaluating `block_inactive_bases` in dry-run mode on a snapshot
with two clusters and one inactive infobase. No block primitive is
invoked, but the inactive infobase's name is returned once per cluster:
`["Idle", "Idle"]` instead of the single `["Idle"]` the claim requires,
because the loop over `inactive_bases` is nested inside the loop over
`clusters`. -/
theorem c3_dry_run_two_clusters :
    (blockInactiveBases true twoClusters oneInactive (fun _ _ => false)).2 = [] ∧
    (blockInactiveBases true twoClusters oneInactive (fun _ _ => false)).1 =
      ["Idle", "Idle"] ∧
    oneInactive.map InfoBase.name = ["Idle"] := by
  decide

/-! ## Correlation: inactivity flag and the inactive subset (C2) -/

lemma correlateIB_inactive_iff (ib : InfoBase) (ss : List Session)
    (hib : ib.is_inactive = false) :
    ((correlateIB ib ss).is_inactive = true ↔ (correlateIB ib ss).sessions_count = 0) := by
  by_cases hc : (ibSessionsOf ib ss).length = 0 <;> simp [correlateIB, hc, hib]

/-- C2: after the correlation loop (over freshly parsed infobases, whose
`is_inactive` flag starts out false), an infobase is flagged inactive
exactly when its derived session count is zero, and the inactive list is
exactly the zero-session subsequence of the correlated infobase list, in
the original fetch order. -/
theorem c2_inactive_characterization (ibs : List InfoBase) (ss : List Session)
    (h : ∀ ib ∈ ibs, ib.is_inactive = false) :
    (∀ ib2 ∈ (correlateLoop ibs ss).1,
        (ib2.is_inactive = true ↔ ib2.sessions_count = 0)) ∧
    (correlateLoop ibs ss).2 =
      (correlateLoop ibs ss).1.filter (fun ib2 => ib2.sessions_count == 0) := by
  induction ibs with
  | nil => exact ⟨by intro ib2 h2; simp [correlateLoop] at h2, by simp [correlateLoop]⟩
  | cons ib rest ih =>
    obtain ⟨ih1, ih2⟩ := ih (fun x hx => h x (List.mem_cons_of_mem _ hx))
    have hib := h ib (List.mem_cons_self _ _)
    constructor
    · intro ib2 hmem
      simp only [correlateLoop] at hmem
      rcases List.mem_cons.mp hmem with h2 | h2
      · subst h2
        exact correlateIB_inactive_iff ib ss hib
      · exact ih1 ib2 h2
    · simp only [correlateLoop]
      rw [ih2]
      by_cases hc : (correlateIB ib ss).sessions_count = 0 <;>
        simp [List.filter_cons, hc]

/-- Witness for C2 at a concrete one-infobase, zero-session snapshot. -/
theorem c2_inactive_characterization_witness :
    (∀ ib2 ∈ (correlateLoop [{ infobase_id := "b", name := "B" }] []).1,
        (ib2.is_inactive = true ↔ ib2.sessions_count = 0)) ∧
    (correlateLoop [{ infobase_id := "b", name := "B" }] []).2 =
      (correlateLoop [{ infobase_id := "b", name := "B" }] []).1.filter
        (fun ib2 => ib2.sessions_count == 0) :=
  c2_inactive_characterization [{ infobase_id := "b", name := "B" }] [] (by decide)

/-! ## Correlation: session counts and their sum (C1) -/

lemma filter_or_length {α : Type} (p q : α → Bool) (l : List α)
    (h : ∀ a ∈ l, ¬(p a = true ∧ q a = true)) :
    (l.filter (fun a => p a || q a)).length
      = (l.filter p).length + (l.filter q).length := by
  induction l with
  | nil => rfl
  | cons a l ih =>
    have hd := h a (List.mem_cons_self _ _)
    have ht := ih (fun b hb => h b (List.mem_cons_of_mem _ hb))
    by_cases hp : p a = true
    · have hq : q a = false := by
        cases hqq : q a
        · rfl
        · exact absurd ⟨hp, hqq⟩ hd
      simp [List.filter_cons, hp, hq, ht]
      omega
    · by_cases hq : q a = true <;> simp [List.filter_cons, hp, hq, ht] <;> omega

/-- C1 (amended): every correlated infobase's `sessions_count` equals the
number of sessions whose `infobase_id` matches it; and, provided the
infobase identifiers of the pass are pairwise distinct, the sum of the
counts equals the number of sessions matched by some infobase of the
pass. -/
theorem c1_sessions_count_sum (ibs : List InfoBase) (ss : List Session) :
    (∀ ib2 ∈ (correlateLoop ibs ss).1,
        ib2.sessions_count =
          (ss.filter (fun s => s.infobase_id == ib2.infobase_id)).length) ∧
    ((ibs.map (fun ib => ib.infobase_id)).Nodup →
        sumCounts (correlateLoop ibs ss).1 = matchedSessionCount ibs ss) := by
  induction ibs with
  | nil =>
    constructor
    · intro ib2 h2
      simp [correlateLoop] at h2
    · intro _
      simp [correlateLoop, sumCounts, matchedSessionCount]
  | cons ib rest ih =>
    constructor
    · intro ib2 hmem
      simp only [correlateLoop] at hmem
      rcases List.mem_cons.mp hmem with h2 | h2
      · subst h2
        rfl
      · exact ih.1 ib2 h2
    · intro hnd
      rw [List.map_cons, List.nodup_cons] at hnd
      obtain ⟨hnotin, hnd2⟩ := hnd
      have hsum : sumCounts (correlateLoop (ib :: rest) ss).1
          = (ibSessionsOf ib ss).length + sumCounts (correlateLoop rest ss).1 := by
        simp [correlateLoop, sumCounts]
        rfl
      have hmatch : matchedSessionCount (ib :: rest) ss
          = (ss.filter (fun s => s.infobase_id == ib.infobase_id)).length
            + matchedSessionCount rest ss := by
        unfold matchedSessionCount
        have h2 : (ss.filter (fun s => (ib :: rest).any (fun ib2 => s.infobase_id == ib2.infobase_id)))
            = ss.filter (fun s => (s.infobase_id == ib.infobase_id)
                || rest.any (fun ib2 => s.infobase_id == ib2.infobase_id)) := by
          apply List.filter_congr
          intro s _
          simp [List.any_cons]
        rw [h2, filter_or_length]
        rintro s - ⟨h1, h2b⟩
        obtain ⟨ib2, hib2, heq⟩ := List.any_eq_true.mp h2b
        apply hnotin
        have e1 : s.infobase_id = ib.infobase_id := eq_of_beq h1
        have e2 : s.infobase_id = ib2.infobase_id := eq_of_beq heq
        rw [List.mem_map]
        exact ⟨ib2, hib2, e2.symm.trans e1⟩
      rw [hsum, hmatch, ih.2 hnd2]
      rfl

/-- Counterexample for C1 as stated: with two infobases sharing one
`infobase_id` and one matching session, the counts sum to 2 while only one
session matches some infobase of the list. -/
theorem c1_sum_counterexample :
    sumCounts (correlateLoop dupIdBases oneSessionA).1
      ≠ matchedSessionCount dupIdBases oneSessionA := by
  decide

/-- Witness for C1 at a concrete duplicate-free snapshot. -/
theorem c1_sessions_count_sum_witness :
    sumCounts (correlateLoop
      [{ infobase_id := "a", name := "A" }, { infobase_id := "b", name := "B" }]
      oneSessionA).1
      = matchedSessionCount
          [{ infobase_id := "a", name := "A" }, { infobase_id := "b", name := "B" }]
          oneSessionA :=
  (c1_sessions_count_sum
    [{ infobase_id := "a", name := "A" }, { infobase_id := "b", name := "B" }]
    oneSessionA).2 (by decide)

/-! ## Correlation: last session time (C4) -/

lemma foldl_max_mem (xs : List Nat) (a : Nat) : xs.foldl Nat.max a ∈ a :: xs := by
  induction xs generalizing a with
  | nil => simp
  | cons x xs ih =>
    rw [List.foldl_cons]
    rcases List.mem_cons.mp (ih (Nat.max a x)) with h1 | h1
    · have h2 : Nat.max a x = a ∨ Nat.max a x = x := by
        rcases Nat.le_total a x with hle | hle
        · exact Or.inr (Nat.max_eq_right hle)
        · exact Or.inl (Nat.max_eq_left hle)
      rcases h2 with h2 | h2
      · rw [h1, h2]
        exact List.mem_cons_self _ _
      · rw [h1, h2]
        exact List.mem_cons_of_mem _ (List.mem_cons_self _ _)
    · exact List.mem_cons_of_mem _ (List.mem_cons_of_mem _ h1)

lemma foldl_max_le (xs : List Nat) (a : Nat) : ∀ u ∈ a :: xs, u ≤ xs.foldl Nat.max a := by
  induction xs generalizing a with
  | nil =>
    intro u hu
    rw [List.mem_singleton] at hu
    exact hu.le
  | cons x xs ih =>
    intro u hu
    rw [List.foldl_cons]
    rcases List.mem_cons.mp hu with h1 | h1
    · subst h1
      have hle : u ≤ Nat.max u x := Nat.le_max_left u x
      exact Nat.le_trans hle (ih (Nat.max u x) _ (List.mem_cons_self _ _))
    · rcases List.mem_cons.mp h1 with h2 | h2
      · subst h2
        have hle : u ≤ Nat.max a u := Nat.le_max_right a u
        exact Nat.le_trans hle (ih (Nat.max a u) _ (List.mem_cons_self _ _))
      · exact ih (Nat.max a x) u (List.mem_cons_of_mem _ h2)

lemma pyMaxList_mem (l : List Nat) (h : l ≠ []) : pyMaxList l ∈ l := by
  match l with
  | [] => exact absurd rfl h
  | x :: xs => exact foldl_max_mem xs x

lemma pyMaxList_le (l : List Nat) : ∀ u ∈ l, u ≤ pyMaxList l := by
  match l with
  | [] => intro u hu; cases hu
  | x :: xs => exact foldl_max_le xs x

lemma correlateIB_last (ib : InfoBase) (ss : List Session) :
    (correlateIB ib ss).last_session_time =
      if (ibSessionsOf ib ss).isEmpty then ib.last_session_time
      else if (lastTimesOf ib ss).isEmpty then ib.last_session_time
      else some (pyMaxList (lastTimesOf ib ss)) := rfl

/-- C4: on a freshly parsed infobase (whose `last_session_time` starts out
absent), the correlated `last_session_time` is absent exactly when no
matching session carries a `last_active_at`; when it is present it is one
of the matching sessions' `last_active_at` values and an upper bound of
all of them — i.e. their maximum. -/
theorem c4_last_session_time (ib : InfoBase) (ss : List Session)
    (h : ib.last_session_time = none) :
    ((correlateIB ib ss).last_session_time = none ↔
        ∀ s ∈ ss, s.infobase_id = ib.infobase_id → s.last_active_at = none) ∧
    (∀ t, (correlateIB ib ss).last_session_time = some t →
        (∃ s ∈ ss, s.infobase_id = ib.infobase_id ∧ s.last_active_at = some t) ∧
        (∀ s ∈ ss, s.infobase_id = ib.infobase_id →
            ∀ u, s.last_active_at = some u → u ≤ t)) := by
  have hmem_times : ∀ u, u ∈ lastTimesOf ib ss ↔
      ∃ s ∈ ss, s.infobase_id = ib.infobase_id ∧ s.last_active_at = some u := by
    intro u
    unfold lastTimesOf ibSessionsOf
    rw [List.mem_filterMap]
    constructor
    · rintro ⟨s, hs, hlat⟩
      rw [List.mem_filter] at hs
      exact ⟨s, hs.1, eq_of_beq hs.2, hlat⟩
    · rintro ⟨s, hs, hid, hlat⟩
      refine ⟨s, ?_, hlat⟩
      rw [List.mem_filter]
      exact ⟨hs, by rw [hid]; exact beq_self_eq_true _⟩
  rw [correlateIB_last, h]
  by_cases hL : (ibSessionsOf ib ss).isEmpty
  · rw [if_pos hL]
    have hnone : ∀ s ∈ ss, s.infobase_id = ib.infobase_id → s.last_active_at = none := by
      intro s hs hid
      exfalso
      rw [List.isEmpty_iff] at hL
      have : s ∈ ibSessionsOf ib ss := by
        unfold ibSessionsOf
        rw [List.mem_filter]
        exact ⟨hs, by rw [hid]; exact beq_self_eq_true _⟩
      rw [hL] at this
      cases this
    exact ⟨iff_of_true rfl hnone, by intro t ht; cases ht⟩
  · by_cases hT : (lastTimesOf ib ss).isEmpty
    · rw [if_neg hL, if_pos hT]
      rw [List.isEmpty_iff] at hT
      have hnone : ∀ s ∈ ss, s.infobase_id = ib.infobase_id → s.last_active_at = none := by
        intro s hs hid
        cases hlat : s.last_active_at with
        | none => rfl
        | some u =>
          exfalso
          have : u ∈ lastTimesOf ib ss := (hmem_times u).mpr ⟨s, hs, hid, hlat⟩
          rw [hT] at this
          cases this
      exact ⟨iff_of_true rfl hnone, by intro t ht; cases ht⟩
    · rw [if_neg hL, if_neg hT]
      rw [List.isEmpty_iff] at hT
      constructor
      · constructor
        · intro hcontra
          cases hcontra
        · intro hall
          exfalso
          obtain ⟨u, hu⟩ := List.exists_mem_of_ne_nil _ hT
          obtain ⟨s, hs, hid, hlat⟩ := (hmem_times u).mp hu
          rw [hall s hs hid] at hlat
          cases hlat
      · intro t ht
        have htmax : t = pyMaxList (lastTimesOf ib ss) := by
          injection ht with h2
          exact h2.symm
        subst htmax
        constructor
        · exact (hmem_times _).mp (pyMaxList_mem _ hT)
        · intro s hs hid u hlat
          exact pyMaxList_le _ u ((hmem_times u).mpr ⟨s, hs, hid, hlat⟩)

/-- Witness for C4 at a concrete infobase with one matching session that
carries a `last_active_at`. -/
theorem c4_last_session_time_witness :
    ((correlateIB sampleBase sampleSessions).last_session_time = none ↔
        ∀ s ∈ sampleSessions, s.infobase_id = sampleBase.infobase_id →
          s.last_active_at = none) ∧
    (∀ t, (correlateIB sampleBase sampleSessions).last_session_time = some t →
        (∃ s ∈ sampleSessions, s.infobase_id = sampleBase.infobase_id ∧
            s.last_active_at = some t) ∧
        (∀ s ∈ sampleSessions, s.infobase_id = sampleBase.infobase_id →
            ∀ u, s.last_active_at = some u → u ≤ t)) :=
  c4_last_session_time sampleBase sampleSessions rfl

/-! ## Text report: session section truncation (C8) -/

/-- C8: the text report is exactly the sections before the session entries,
then the rendering of only the first 20 sessions, then — precisely when the
snapshot holds more than 20 sessions — the truncation line whose count is
the total number of sessions minus 20, then the remaining sections. -/
theorem c8_session_truncation (r : ClusterReport) :
    textReportLines r =
      reportFront r ++ ((r.sessions.take 20).flatMap sessionEntryLines) ++
      (if 20 < r.sessions.length then
        [sessionsTruncationLine (r.sessions.length - 20)]
       else []) ++ reportBack r := by
  simp only [textReportLines, reportFront, reportBack, List.append_assoc]

/-! ## JSON projection round-trip (C9) -/

lemma decode_encode_infobase (ib : InfoBase) :
    decodeInfobase (jsonInfobase ib) =
      some ⟨ib.infobase_id, ib.name, (ib.sessions_count : Int), ib.is_inactive,
            ib.last_session_time.map datetimeStr⟩ := by
  cases h : ib.last_session_time with
  | none =>
    simp only [jsonInfobase, h, Option.map_none']
    rfl
  | some t =>
    simp only [jsonInfobase, h, Option.map_some']
    rfl

lemma decodeInfobaseList_map (l : List InfoBase) :
    decodeInfobaseList (l.map jsonInfobase) =
      some (l.map (fun ib =>
        (⟨ib.infobase_id, ib.name, (ib.sessions_count : Int), ib.is_inactive,
          ib.last_session_time.map datetimeStr⟩ : DecodedInfobase))) := by
  induction l with
  | nil => rfl
  | cons ib l ih => simp [decodeInfobaseList, decode_encode_infobase, ih]

/-- C9: decoding the `"infobases"` array of the JSON report recovers, for
each infobase of the snapshot in order, exactly its id, name,
sessions_count and is_inactive values, with `last_session_time` rendered as
its timestamp string when present and as JSON null otherwise. -/
theorem c9_json_round_trip (r : ClusterReport) :
    decodeInfobases (jsonReportData r) =
      some (r.infobases.map (fun ib =>
        { id := ib.infobase_id, name := ib.name,
          sessions_count := (ib.sessions_count : Int),
          is_inactive := ib.is_inactive,
          last_session_time := ib.last_session_time.map datetimeStr })) := by
  have h1 : jLookup (jsonReportData r) "infobases"
      = some (.arr (r.infobases.map jsonInfobase)) := rfl
  unfold decodeInfobases
  rw [h1]
  exact decodeInfobaseList_map r.infobases

/-! ## The record grammar refinement (C5) -/

lemma splitNl_ne_nil (cs : List Char) : splitNl cs ≠ [] := by
  match cs with
  | [] => simp [splitNl]
  | c :: cs =>
    simp only [splitNl]
    split
    · simp
    · split <;> simp

lemma splitBlanks_ne_nil (ls : List (List Char)) : splitBlanks ls ≠ [] := by
  match ls with
  | [] => simp [splitBlanks]
  | l :: ls =>
    simp only [splitBlanks]
    split
    · simp
    · split <;> simp

lemma parseLoop_splitBlanks (ls : List (List Char)) :
    ∀ (cur : PDict) (g : List (List Char)) (gs : List (List (List Char))),
      splitBlanks (ls.map pyStrip) = g :: gs →
      parseLoop ls cur =
        ((g.foldl parseLine cur) :: gs.map mkRecord).filter (fun d => ! d.isEmpty) := by
  induction ls with
  | nil =>
    intro cur g gs h
    simp only [List.map_nil, splitBlanks] at h
    injection h with h1 h2
    subst h1
    subst h2
    simp only [parseLoop, List.foldl_nil, List.map_nil]
    by_cases hcur : cur.isEmpty <;> simp [List.filter_cons, hcur]
  | cons l ls ih =>
    intro cur g gs h
    rw [List.map_cons] at h
    obtain ⟨g2, gs2, hsb⟩ :
        ∃ g2 gs2, splitBlanks (ls.map pyStrip) = g2 :: gs2 :=
      List.exists_cons_of_ne_nil (splitBlanks_ne_nil _)
    by_cases hl : pyStrip l = []
    · rw [hl] at h
      simp only [splitBlanks, if_pos rfl] at h
      injection h with h1 h2
      subst h1
      have hgs : gs = g2 :: gs2 := h2.symm.trans hsb
      subst hgs
      have hih := ih [] g2 gs2 hsb
      have hl2 : (pyStrip l).isEmpty = true := by rw [hl]; rfl
      simp only [parseLoop, hl2, if_true, List.foldl_nil, List.map_cons]
      by_cases hcur : cur.isEmpty <;>
        simp [List.filter_cons, hcur, hih, mkRecord]
    · simp only [splitBlanks, if_neg hl, hsb] at h
      injection h with h1 h2
      subst h1
      subst h2
      have hl2 : (pyStrip l).isEmpty = false := by
        cases hpl : pyStrip l with
        | nil => exact absurd hpl hl
        | cons a b => rfl
      simp only [parseLoop, hl2, Bool.false_eq_true, if_false, List.foldl_cons]
      exact ih (parseLine cur (pyStrip l)) g2 gs2 hsb

lemma parseOutput_eq_linesRecords (s : String) :
    parseOutput s = linesRecords (pyStrip s.data) := by
  unfold parseOutput linesRecords specRecords
  obtain ⟨g, gs, hsb⟩ :
      ∃ g gs, splitBlanks ((splitNl (pyStrip s.data)).map pyStrip) = g :: gs :=
    List.exists_cons_of_ne_nil (splitBlanks_ne_nil _)
  rw [parseLoop_splitBlanks _ [] g gs hsb, hsb, List.map_cons]
  simp [mkRecord]

lemma specRecords_blank_cons (M : List (List Char)) :
    specRecords ([] :: M) = specRecords M := by
  simp only [specRecords]
  rw [show splitBlanks ([] :: M) = [] :: splitBlanks M from by simp [splitBlanks]]
  simp [mkRecord, List.filter_cons]

lemma splitBlanks_append_blank (M : List (List Char)) :
    splitBlanks (M ++ [[]]) = splitBlanks M ++ [[]] := by
  induction M with
  | nil => rfl
  | cons l M ih =>
    by_cases hl : l = []
    · subst hl
      simp [splitBlanks, ih]
    · obtain ⟨g, gs, hsb⟩ :
          ∃ g gs, splitBlanks M = g :: gs :=
        List.exists_cons_of_ne_nil (splitBlanks_ne_nil _)
      have hM : splitBlanks (M ++ [[]]) = g :: (gs ++ [[]]) := by
        rw [ih, hsb]
        rfl
      simp [List.cons_append, splitBlanks, if_neg hl, hM, hsb]

lemma specRecords_append_blank (M : List (List Char)) :
    specRecords (M ++ [[]]) = specRecords M := by
  simp only [specRecords, splitBlanks_append_blank, List.map_append, List.filter_append]
  simp [mkRecord]

lemma splitNl_concat (a : List Char) (c : Char) :
    splitNl (a ++ [c]) =
      if c = '\n' then splitNl a ++ [[]] else appLast (splitNl a) c := by
  induction a with
  | nil =>
    by_cases hc : c = '\n' <;> simp [splitNl, appLast, hc]
  | cons d a ih =>
    obtain ⟨g, gs, hg⟩ :
        ∃ g gs, splitNl a = g :: gs :=
      List.exists_cons_of_ne_nil (splitNl_ne_nil a)
    by_cases hc : c = '\n'
    · subst hc
      rw [if_pos rfl]
      have h2 : splitNl (a ++ ['\n']) = g :: (gs ++ [[]]) := by
        rw [ih, if_pos rfl, hg]
        rfl
      by_cases hd : d = '\n'
      · subst hd
        simp [splitNl, h2, hg]
      · simp [splitNl, hd, h2, hg]
    · rw [if_neg hc]
      have h2 : splitNl (a ++ [c]) = appLast (g :: gs) c := by
        rw [ih, if_neg hc, hg]
      by_cases hd : d = '\n'
      · subst hd
        simp [splitNl, h2, hg, appLast]
      · cases gs with
        | nil => simp [splitNl, hd, h2, hg, appLast]
        | cons g2 gs2 => simp [splitNl, hd, h2, hg, appLast]

lemma pyStrip_cons_ws (c : Char) (g : List Char) (h : isPySpace c = true) :
    pyStrip (c :: g) = pyStrip g := by
  simp [pyStrip, List.dropWhile_cons, h]

lemma dropWhile_append_of_eq_nil {p : Char → Bool} {a : List Char}
    (h : a.dropWhile p = []) (b : List Char) :
    (a ++ b).dropWhile p = b.dropWhile p := by
  induction a with
  | nil => rfl
  | cons x a ih =>
    rw [List.dropWhile_cons] at h
    by_cases hx : p x = true
    · rw [if_pos hx] at h
      rw [List.cons_append, List.dropWhile_cons, if_pos hx]
      exact ih h
    · rw [if_neg hx] at h
      cases h

lemma dropWhile_append_of_ne_nil {p : Char → Bool} {a : List Char}
    (h : a.dropWhile p ≠ []) (b : List Char) :
    (a ++ b).dropWhile p = a.dropWhile p ++ b := by
  induction a with
  | nil => exact absurd rfl h
  | cons x a ih =>
    by_cases hx : p x = true
    · rw [List.dropWhile_cons, if_pos hx] at h
      rw [List.cons_append, List.dropWhile_cons, if_pos hx,
          List.dropWhile_cons, if_pos hx]
      exact ih h
    · rw [List.cons_append, List.dropWhile_cons, if_neg hx,
          List.dropWhile_cons, if_neg hx]
      rfl

lemma pyStrip_concat_ws (g : List Char) (c : Char) (h : isPySpace c = true) :
    pyStrip (g ++ [c]) = pyStrip g := by
  by_cases hg : g.dropWhile isPySpace = []
  · unfold pyStrip
    rw [dropWhile_append_of_eq_nil hg, hg]
    simp [List.dropWhile_cons, h]
  · unfold pyStrip
    rw [dropWhile_append_of_ne_nil hg, List.reverse_append]
    simp [List.dropWhile_cons, h]

lemma map_pyStrip_appLast (G : List (List Char)) (c : Char) (hG : G ≠ [])
    (hc : isPySpace c = true) :
    (appLast G c).map pyStrip = G.map pyStrip := by
  match G with
  | [] => exact absurd rfl hG
  | [g] => simp [appLast, pyStrip_concat_ws g c hc]
  | g :: g2 :: gs =>
    have ih := map_pyStrip_appLast (g2 :: gs) c (by simp) hc
    simp [appLast, ih]

lemma linesRecords_dropWhile (cs : List Char) :
    linesRecords (cs.dropWhile isPySpace) = linesRecords cs := by
  induction cs with
  | nil => rfl
  | cons c cs ih =>
    by_cases hc : isPySpace c = true
    · rw [List.dropWhile_cons, if_pos hc, ih]
      by_cases hnl : c = '\n'
      · subst hnl
        unfold linesRecords
        rw [show splitNl ('\n' :: cs) = [] :: splitNl cs from by simp [splitNl]]
        rw [List.map_cons]
        rw [show pyStrip ([] : List Char) = [] from rfl]
        exact (specRecords_blank_cons _).symm
      · obtain ⟨g, gs, hg⟩ :
            ∃ g gs, splitNl cs = g :: gs :=
          List.exists_cons_of_ne_nil (splitNl_ne_nil cs)
        unfold linesRecords
        rw [show splitNl (c :: cs) = (c :: g) :: gs from by simp [splitNl, hnl, hg], hg]
        rw [List.map_cons, List.map_cons, pyStrip_cons_ws c g hc]
    · rw [List.dropWhile_cons, if_neg hc]

lemma linesRecords_rstrip (cs : List Char) :
    linesRecords (rstripWs cs) = linesRecords cs := by
  induction cs using List.reverseRecOn with
  | nil => rfl
  | append_singleton a c ih =>
    by_cases hc : isPySpace c = true
    · have h1 : rstripWs (a ++ [c]) = rstripWs a := by
        unfold rstripWs
        rw [List.reverse_append]
        simp [List.dropWhile_cons, hc]
      rw [h1, ih]
      by_cases hnl : c = '\n'
      · subst hnl
        unfold linesRecords
        rw [splitNl_concat, if_pos rfl, List.map_append]
        simp only [List.map_cons, List.map_nil]
        rw [show pyStrip ([] : List Char) = [] from rfl]
        exact (specRecords_append_blank _).symm
      · unfold linesRecords
        rw [splitNl_concat, if_neg hnl,
            map_pyStrip_appLast (splitNl a) c (splitNl_ne_nil a) hc]
    · have h1 : rstripWs (a ++ [c]) = a ++ [c] := by
        unfold rstripWs
        rw [List.reverse_append]
        simp [List.dropWhile_cons, hc]
      rw [h1]

/-- C5: the output parsing loop of `_parse_output` computes exactly the
record grammar of the specification — records delimited by blank lines,
first-colon key/value splitting with trimming, non-colon lines ignored,
the trailing record emitted, empty input and whitespace-only input giving
no records, and duplicate keys within a record resolved last-write-wins
(built into the record dictionary). -/
theorem c5_parse_refinement (s : String) : parseOutput s = specParse s := by
  rw [parseOutput_eq_linesRecords]
  have h1 : pyStrip s.data = rstripWs (s.data.dropWhile isPySpace) := rfl
  rw [h1, linesRecords_rstrip, linesRecords_dropWhile]
  rfl
